import Mathlib

/-!
Verification of the cactusinterfacing parameter-file parser and grid resolver.

The development shallowly embeds the C++ sources:
  * `src/parparser/parparser.cpp` / `.h` — the line parser, value
    normalization, the case-insensitive parameter store, and the resolver
    stages `proceedPUGH`, `setupSymmetry`, `proceedCartGrid`, `proceedTime`;
  * `src/types/cactusgrid.cpp` / `.h` — the `CactusGrid` hierarchy with its
    allocation sizes, `copyData`, `operator=`, copy construction and the
    `cctk_dim` resizing setter.

Modelling conventions:
  * C++ `std::string` values are byte lists (`List Nat`); `boost` string
    operations (`to_lower_copy`, `iequals`, `trim`, `erase_all`) and the
    perl regexes of `parseLine` are embedded over bytes, in the C locale
    the source relies on (ASCII case folding, `isspace` whitespace).
  * `CCTK_REAL` (`double`) is modelled by `ℚ`; every arithmetic step the
    claims touch (negation, halving, multiplication, comparison, exact
    decimal constants) is stated at the level of real-number values.
    `sqrt(dim)` of the two courant branches no claim touches is kept
    abstract as a function argument `fsqrt`.
  * Heap arrays of the hierarchy are total maps `Nat → _`; the allocated
    extents from `allocateMemory` are recorded separately (`bbox_alloc_len`),
    and freshly allocated (in C++ indeterminate) cells are modelled as 0.
  * Exceptions are `Except ParError`; `std::invalid_argument` from
    conversions, syntax errors and unknown enum strings, and the
    `std::logic_error` of the call-`parse`-first guards, are its cases.
-/

namespace Cactus

/-- Byte strings: the development's model of C++ `std::string`. -/
abbrev Bytes := List Nat

/-- View of a Lean string literal as its (ASCII) byte list. -/
def bytes (s : String) : Bytes := s.data.map Char.toNat

/-- ASCII lower-casing of one byte, as C `tolower` in the C locale
(what `boost::algorithm::to_lower` applies per character). -/
def lowerByte (b : Nat) : Nat := if 65 ≤ b ∧ b ≤ 90 then b + 32 else b

/-- `boost::algorithm::to_lower_copy`. -/
def toLowerB (s : Bytes) : Bytes := s.map lowerByte

/-- `boost::iequals`: case-insensitive string equality (`ParParser::equals`). -/
def iequals (s t : Bytes) : Bool := toLowerB s = toLowerB t

/-- C-locale `isspace`: the class `\s` of the parser's perl regexes and of
`boost::algorithm::trim`. -/
def isSpaceByte (b : Nat) : Bool :=
  b = 32 ∨ b = 9 ∨ b = 10 ∨ b = 11 ∨ b = 12 ∨ b = 13

/-- The regex class `\w`: ASCII letters, digits and underscore. -/
def isWordByte (b : Nat) : Bool :=
  (48 ≤ b ∧ b ≤ 57) ∨ (65 ≤ b ∧ b ≤ 90) ∨ (97 ≤ b ∧ b ≤ 122) ∨ b = 95

/-- The parameter store `m_parMap`: `std::map<std::string, std::string>`
modelled as an association list; `storeSet` is `m_parMap[key] = value`
(overwrite or insert). -/
abbrev Store := List (Bytes × Bytes)

/-- `m_parMap[k] = v`: replace the binding of `k`, or append it. -/
def storeSet : Store → Bytes → Bytes → Store
  | [], k, v => [(k, v)]
  | (k', v') :: rest, k, v =>
    if k' = k then (k, v) :: rest else (k', v') :: storeSet rest k v

/-- `m_parMap.find(k)` / `count(k)` as an optional lookup. -/
def storeFind? : Store → Bytes → Option Bytes
  | [], _ => none
  | (k', v') :: rest, k => if k' = k then some v' else storeFind? rest k

/-- `ParParser::exists`: lower-case the query, then look it up. -/
def keyExists (m : Store) (key : Bytes) : Bool :=
  (storeFind? m (toLowerB key)).isSome

/-- `ParParser::getString`: lower-case the query, then look it up. The C++
dereferences the map iterator unguarded; callers guard with `exists`, so a
missing key is surfaced as `none`. -/
def getString (m : Store) (key : Bytes) : Option Bytes :=
  storeFind? m (toLowerB key)

/-! ## Line classification (`ParParser::parseLine`)

The three perl regexes, embedded directly: `^\s*(#|!)` (comment),
`^\s*$` (blank) and `^\s*(\w+::\w+|ActiveThorns)\s*=\s*(.*)$` (assignment,
case-insensitive). The character classes `\w` and `\s` are disjoint from
`:` and `=`, so the greedy matches below are exactly the regex semantics. -/

/-- Skip the leading `\s*`. -/
def dropSpaces (s : Bytes) : Bytes := s.dropWhile (fun b => isSpaceByte b)

/-- The comment regex `^\s*(#|!)`: after leading whitespace a `#` (35)
or `!` (33). -/
def isCommentLine (line : Bytes) : Bool :=
  match dropSpaces line with
  | b :: _ => b = 35 ∨ b = 33
  | [] => false

/-- The blank regex `^\s*$`. -/
def isEmptyLine (line : Bytes) : Bool := dropSpaces line = []

/-- After the key of an assignment: `\s*=\s*(.*)$`. Returns the lower-cased
key (`boost::algorithm::to_lower(implname)`) and the captured value. -/
def afterKey (name rest : Bytes) : Option (Bytes × Bytes) :=
  match dropSpaces rest with
  | b :: r2 => if b = 61 then some (toLowerB name, dropSpaces r2) else none
  | [] => none

/-- First alternative `\w+::\w+` then `\s*=\s*(.*)$`
(`:` is byte 58). -/
def matchQualified (s : Bytes) : Option (Bytes × Bytes) :=
  if s.takeWhile isWordByte = [] then none else
  match s.dropWhile isWordByte with
  | b1 :: b2 :: r2 =>
    if b1 = 58 ∧ b2 = 58 then
      if r2.takeWhile isWordByte = [] then none else
      afterKey (s.takeWhile isWordByte ++ 58 :: 58 :: r2.takeWhile isWordByte)
        (r2.dropWhile isWordByte)
    else none
  | _ => none

/-- Second alternative, the case-insensitive literal `ActiveThorns`,
then `\s*=\s*(.*)$`. -/
def matchActiveThorns (s : Bytes) : Option (Bytes × Bytes) :=
  if toLowerB (s.take 12) = bytes "activethorns" then
    afterKey (s.take 12) (s.drop 12)
  else none

/-- The assignment regex `^\s*(\w+::\w+|ActiveThorns)\s*=\s*(.*)$` with
`icase`: leading whitespace, then the two alternatives in order. -/
def matchParameter (line : Bytes) : Option (Bytes × Bytes) :=
  let s := dropSpaces line
  match matchQualified s with
  | some kv => some kv
  | none => matchActiveThorns s

/-- The exceptions of the embedded code. -/
inductive ParError where
  /-- `"syntax error in line: ..."` from `parseLine`. -/
  | syntaxError (line : Bytes)
  /-- `"Failed to convert ..."` from `fromString`. -/
  | conversionError (value : Bytes)
  /-- `"Unknown Domain ..."` from `setupSymmetry`. -/
  | unknownDomain (domain : Bytes)
  /-- `"Unknown Grid Type ..."` from `proceedCartGrid`. -/
  | unknownGridType (t : Bytes)
  /-- `"Unknown Time Method ..."` from `proceedTime`. -/
  | unknownTimeMethod (t : Bytes)
  /-- `"No Parameter file given!"` / unreadable file from `parse`. -/
  | noFile
  /-- `std::logic_error "ParParser: Call parse() first!"` from the accessors. -/
  | logicParseFirst
  deriving DecidableEq, Repr

/-- Decidable equality of `Except` results, for evaluating the embedded
code on concrete inputs. -/
instance exceptDecEq {ε α : Type} [DecidableEq ε] [DecidableEq α] :
    DecidableEq (Except ε α) := fun a b =>
  match a, b with
  | .ok x, .ok y =>
    if h : x = y then .isTrue (by rw [h]) else .isFalse (by simp [h])
  | .error x, .error y =>
    if h : x = y then .isTrue (by rw [h]) else .isFalse (by simp [h])
  | .ok _, .error _ => .isFalse (by simp)
  | .error _, .ok _ => .isFalse (by simp)

/-- `ParParser::parseLine` acting on the store: comments and blank lines are
skipped, assignments stored, anything else raises the syntax error carrying
the line. -/
def parseLine (m : Store) (line : Bytes) : Except ParError Store :=
  if isCommentLine line then .ok m
  else if isEmptyLine line then .ok m
  else
    match matchParameter line with
    | some (k, v) => .ok (storeSet m k v)
    | none => .error (.syntaxError line)

/-- The read loop of `ParParser::parse`: each line through `parseLine`, the
first exception aborting the rest. -/
def parseLines : List Bytes → Store → Except ParError Store
  | [], m => .ok m
  | l :: ls, m =>
    match parseLine m l with
    | .ok m' => parseLines ls m'
    | .error e => .error e

/-! ## Value normalization (`ParParser::prepareValues`) -/

/-- `boost::algorithm::erase_all(v, "\"")`: drop every double quote (34). -/
def eraseQuotes (s : Bytes) : Bytes := s.filter (fun b => ¬ b = 34)

/-- `boost::algorithm::trim`: strip leading and trailing whitespace. -/
def trimB (s : Bytes) : Bytes := dropSpaces ((dropSpaces s.reverse).reverse)

/-- The two sequential boolean rewrites of `prepareValues`: first the
yes-group to `"1"`, then (testing the possibly rewritten value) the
no-group to `"0"`. -/
def boolCanon (v : Bytes) : Bytes :=
  let v1 :=
    if iequals v (bytes "yes") ∨ iequals v (bytes "y") ∨
       iequals v (bytes "true") ∨ iequals v (bytes "t")
    then bytes "1" else v
  if iequals v1 (bytes "no") ∨ iequals v1 (bytes "n") ∨
     iequals v1 (bytes "false") ∨ iequals v1 (bytes "f")
  then bytes "0" else v1

/-- The per-value body of `prepareValues`: erase quotes, trim, canonicalize
booleans, in that order. -/
def normalizeValue (v : Bytes) : Bytes := boolCanon (trimB (eraseQuotes v))

/-- `ParParser::prepareValues`: the normalization pass over every stored
value (keys untouched). -/
def prepareValues (m : Store) : Store :=
  m.map (fun kv => (kv.1, normalizeValue kv.2))

/-! ## Typed conversion (`ParParser::fromString<T>`)

`fromString<T>` feeds the value to an `istringstream` and extracts one `T`;
extraction failure raises `"Failed to convert ..."`. The stream extractors
(C++ standard library, external to the repository) are embedded with their
C-locale behaviour: skip leading whitespace, then scan a token of the
requested shape; trailing characters are ignored. `double` extraction is
modelled with the exact rational value of the decimal text (no rounding,
no hex/inf/nan forms — no claim depends on those). -/

/-- Leading sign of a numeric token: `true` for `-` (45); `+` is 43. -/
def splitSign (s : Bytes) : Bool × Bytes :=
  match s with
  | 43 :: r => (false, r)
  | 45 :: r => (true, r)
  | _ => (false, s)

/-- ASCII digit test. -/
def isDigitByte (b : Nat) : Bool := 48 ≤ b ∧ b ≤ 57

/-- Value of a digit string. -/
def digitsToNat (ds : Bytes) : Nat := ds.foldl (fun acc b => acc * 10 + (b - 48)) 0

/-- `istringstream >> int`: whitespace, optional sign, at least one digit. -/
def fromStringInt (s : Bytes) : Except ParError Int :=
  let s1 := dropSpaces s
  let sr := splitSign s1
  let ds := sr.2.takeWhile isDigitByte
  if ds = [] then .error (.conversionError s)
  else .ok (if sr.1 then -(digitsToNat ds : Int) else (digitsToNat ds : Int))

/-- `istringstream >> double`, with the exact rational value: whitespace,
optional sign, integer and/or fraction digits (at least one in total),
optional exponent. -/
def fromStringRat (s : Bytes) : Except ParError ℚ :=
  let s1 := dropSpaces s
  let sr := splitSign s1
  let ip := sr.2.takeWhile isDigitByte
  let r1 := sr.2.dropWhile isDigitByte
  let fr : Bytes × Bytes :=
    match r1 with
    | 46 :: r => (r.takeWhile isDigitByte, r.dropWhile isDigitByte)
    | _ => ([], r1)
  if ip = [] ∧ fr.1 = [] then .error (.conversionError s)
  else
    let mant : ℚ := (digitsToNat (ip ++ fr.1) : ℚ) / (10 ^ fr.1.length)
    let scale : ℚ :=
      match fr.2 with
      | e :: r =>
        if e = 101 ∨ e = 69 then
          let er := splitSign r
          let eds := er.2.takeWhile isDigitByte
          if eds = [] then 1
          else if er.1 then (1 : ℚ) / 10 ^ digitsToNat eds
          else (10 : ℚ) ^ digitsToNat eds
        else 1
      | [] => 1
    .ok (if sr.1 then -(mant * scale) else mant * scale)

/-- `istringstream >> bool` (no `boolalpha`): an integer that must be `1`
or `0`. -/
def fromStringBool (s : Bytes) : Except ParError Bool :=
  match fromStringInt s with
  | .ok 1 => .ok true
  | .ok 0 => .ok false
  | .ok _ => .error (.conversionError s)
  | .error e => .error e

/-- `istringstream >> std::string`: whitespace, then a non-empty run of
non-whitespace. -/
def fromStringWord (s : Bytes) : Except ParError Bytes :=
  let w := (dropSpaces s).takeWhile (fun b => ¬ isSpaceByte b)
  if w = [] then .error (.conversionError s) else .ok w

/-- The `GET(name, type, toSet)` macro: `toSet` keeps its default unless the
key exists, in which case the stored value is converted (a conversion
failure propagates). -/
def getP {α : Type} (m : Store) (key : String)
    (conv : Bytes → Except ParError α) (dflt : α) : Except ParError α :=
  match getString m (bytes key) with
  | none => .ok dflt
  | some v => conv v

/-! ## The grid hierarchy (`CactusGrid`) -/

/-- `CactusGrid` (src/types/cactusgrid.h). Heap arrays are total maps
`Nat → _`; `allocateMemory` sizes them `cctk_dim` cells each, except
`m_cctk_bbox` with `bbox_alloc_len` cells (cactusgrid.cpp line 12). -/
@[ext] structure CactusGrid where
  cctk_dim : Nat
  cctk_gsh : Nat → Int
  cctk_lsh : Nat → Int
  cctk_lbnd : Nat → Int
  cctk_ubnd : Nat → Int
  cctk_delta_time : ℚ
  cctk_delta_space : Nat → ℚ
  cctk_origin_space : Nat → ℚ
  cctk_bbox : Nat → Int
  cctk_levfac : Nat → Int
  cctk_levoff : Nat → Int
  cctk_levoffdenom : Nat → Int
  cctk_nghostzones : Nat → Int
  cctk_iteration : Int
  cctk_time : ℚ
  identity : Bytes

/-- The allocated length of `m_cctk_bbox`: `new int[2 * dim]`
(`CactusGrid::allocateMemory`, cactusgrid.cpp line 12). -/
def bbox_alloc_len (dim : Nat) : Nat := 2 * dim

/-- Write `v` at index `i` of a heap array. -/
def updAt {α : Type} (f : Nat → α) (i : Nat) (v : α) : Nat → α :=
  fun j => if j = i then v else f j

/-- The uniform setters (`cctk_gsh(int)`, `cctk_lsh(int)`, … in
cactusgrid.h): write `v` at every index below `dim`. -/
def setAll {α : Type} (dim : Nat) (v : α) (f : Nat → α) : Nat → α :=
  fun j => if j < dim then v else f j

/-- A freshly constructed hierarchy of dimension `dim`
(`CactusGrid::CactusGrid(unsigned int)`): memory allocated, contents
indeterminate in C++, modelled as zero. -/
def emptyGrid (dim : Nat) : CactusGrid where
  cctk_dim := dim
  cctk_gsh := fun _ => 0
  cctk_lsh := fun _ => 0
  cctk_lbnd := fun _ => 0
  cctk_ubnd := fun _ => 0
  cctk_delta_time := 0
  cctk_delta_space := fun _ => 0
  cctk_origin_space := fun _ => 0
  cctk_bbox := fun _ => 0
  cctk_levfac := fun _ => 0
  cctk_levoff := fun _ => 0
  cctk_levoffdenom := fun _ => 0
  cctk_nghostzones := fun _ => 0
  cctk_iteration := 0
  cctk_time := 0
  identity := []

/-- `freeMemory()` followed by `allocateMemory` on the same object: every
array replaced by fresh (indeterminate, modelled zero) storage, scalars and
the `m_cctk_dim` field untouched. -/
def allocArrays (g : CactusGrid) : CactusGrid :=
  { g with
    cctk_gsh := fun _ => 0
    cctk_lsh := fun _ => 0
    cctk_lbnd := fun _ => 0
    cctk_ubnd := fun _ => 0
    cctk_delta_space := fun _ => 0
    cctk_origin_space := fun _ => 0
    cctk_bbox := fun _ => 0
    cctk_levfac := fun _ => 0
    cctk_levoff := fun _ => 0
    cctk_levoffdenom := fun _ => 0
    cctk_nghostzones := fun _ => 0 }

/-- `CactusGrid::copyData(rhs)` (cactusgrid.h lines 50-72): scalars copied;
each per-axis array copied for `i < m_cctk_dim` (the destination's current
dimension field); `m_cctk_bbox` copied for `i < 2 * m_cctk_dim + 1` — one
index more than `bbox_alloc_len` allocates. -/
def copyData (g rhs : CactusGrid) : CactusGrid where
  cctk_dim := g.cctk_dim
  cctk_gsh := fun i => if i < g.cctk_dim then rhs.cctk_gsh i else g.cctk_gsh i
  cctk_lsh := fun i => if i < g.cctk_dim then rhs.cctk_lsh i else g.cctk_lsh i
  cctk_lbnd := fun i => if i < g.cctk_dim then rhs.cctk_lbnd i else g.cctk_lbnd i
  cctk_ubnd := fun i => if i < g.cctk_dim then rhs.cctk_ubnd i else g.cctk_ubnd i
  cctk_delta_time := rhs.cctk_delta_time
  cctk_delta_space := fun i =>
    if i < g.cctk_dim then rhs.cctk_delta_space i else g.cctk_delta_space i
  cctk_origin_space := fun i =>
    if i < g.cctk_dim then rhs.cctk_origin_space i else g.cctk_origin_space i
  cctk_bbox := fun i =>
    if i < 2 * g.cctk_dim + 1 then rhs.cctk_bbox i else g.cctk_bbox i
  cctk_levfac := fun i => if i < g.cctk_dim then rhs.cctk_levfac i else g.cctk_levfac i
  cctk_levoff := fun i => if i < g.cctk_dim then rhs.cctk_levoff i else g.cctk_levoff i
  cctk_levoffdenom := fun i =>
    if i < g.cctk_dim then rhs.cctk_levoffdenom i else g.cctk_levoffdenom i
  cctk_nghostzones := fun i =>
    if i < g.cctk_dim then rhs.cctk_nghostzones i else g.cctk_nghostzones i
  cctk_iteration := rhs.cctk_iteration
  cctk_time := rhs.cctk_time
  identity := rhs.identity

/-- `CactusGrid::operator=` (cactusgrid.cpp lines 76-92): on a dimension
mismatch free and re-allocate at the source's dimension, then `copyData`. -/
def assign (g rhs : CactusGrid) : CactusGrid :=
  if g.cctk_dim ≠ rhs.cctk_dim then
    copyData { allocArrays g with cctk_dim := rhs.cctk_dim } rhs
  else copyData g rhs

/-- The copy constructor `CactusGrid(const CactusGrid&)` (cactusgrid.cpp
lines 48-51), `*this = other` on a freshly created object: the value result
is `copyData` into fresh storage at the source's dimension. -/
def copyCtor (rhs : CactusGrid) : CactusGrid :=
  copyData (emptyGrid rhs.cctk_dim) rhs

/-- The `cctk_dim(unsigned int)` setter (cactusgrid.cpp lines 58-74):
shrink (or keep) truncates in place; growth saves a copy, re-allocates,
copies back while the dimension field still holds the old value, and only
then stores the new dimension. -/
def set_cctk_dim (g : CactusGrid) (newDim : Nat) : CactusGrid :=
  if newDim ≤ g.cctk_dim then { g with cctk_dim := newDim }
  else
    let old := copyCtor g
    let copied := copyData (allocArrays g) old
    { copied with cctk_dim := newDim }

/-- `CactusGrid::min_cctk_delta_space` (cactusgrid.h lines 348-359):
running minimum of `m_cctk_delta_space[0 .. m_cctk_dim - 1]`, seeded with
index 0 and scanning indices `1 .. m_cctk_dim - 1`. -/
def min_cctk_delta_space (g : CactusGrid) : ℚ :=
  (List.range' 1 (g.cctk_dim - 1)).foldl
    (fun m i => if g.cctk_delta_space i < m then g.cctk_delta_space i else m)
    (g.cctk_delta_space 0)

/-! ## Resolver stages (`ParParser::proceed*`) -/

/-- A three-slot scratch array (`int m_local[3]` etc.) as a heap map; the
source only ever indexes 0..2. -/
def arr3 {α : Type} (a b c : α) : Nat → α
  | 0 => a
  | 1 => b
  | _ => c

/-- `ParParser::proceedCactus`: `GET(cactus::cctk_itlast, unsigned int,
m_it_max)`. Returns the (possibly updated) `m_it_max`. -/
def proceedCactus (m : Store) (it_max : Int) : Except ParError Int :=
  getP m "cactus::cctk_itlast" fromStringInt it_max

/-- `ParParser::proceedPUGH` (parparser.cpp lines 152-188): read the eight
driver keys over their `initThornDefaults` values, apply the uniform
local/global overrides, and write `cctk_gsh`/`cctk_lsh` below the
dimension — from the locals with an early return when all three are
positive, else from the globals. -/
def proceedPUGH (m : Store) (g : CactusGrid) : Except ParError CactusGrid := do
  let dim := g.cctk_dim
  let globalNSize ← getP m "driver::global_nsize" fromStringInt (-1)
  let global0 ← getP m "driver::global_nx" fromStringInt 10
  let global1 ← getP m "driver::global_ny" fromStringInt 10
  let global2 ← getP m "driver::global_nz" fromStringInt 10
  let localNSize ← getP m "driver::local_nsize" fromStringInt (-1)
  let local0' ← getP m "driver::local_nx" fromStringInt (-1)
  let local1' ← getP m "driver::local_ny" fromStringInt (-1)
  let local2' ← getP m "driver::local_nz" fromStringInt (-1)
  let local0 := if localNSize > 0 then localNSize else local0'
  let local1 := if localNSize > 0 then localNSize else local1'
  let local2 := if localNSize > 0 then localNSize else local2'
  if local0 > 0 ∧ local1 > 0 ∧ local2 > 0 then
    let l := arr3 local0 local1 local2
    pure { g with
      cctk_gsh := fun i => if i < dim then l i else g.cctk_gsh i
      cctk_lsh := fun i => if i < dim then l i else g.cctk_lsh i }
  else
    let g0 := if globalNSize > 0 then globalNSize else global0
    let g1 := if globalNSize > 0 then globalNSize else global1
    let g2 := if globalNSize > 0 then globalNSize else global2
    let gl := arr3 g0 g1 g2
    pure { g with
      cctk_gsh := fun i => if i < dim then gl i else g.cctk_gsh i
      cctk_lsh := fun i => if i < dim then gl i else g.cctk_lsh i }

/-- One iteration body of the symmetry loop (parparser.cpp lines 215-224):
skip `x` at or above the dimension, else set `origin[x]` to `-delta[x]/2`
when avoid-origin holds for `x`, to `-delta[x]` otherwise. -/
def symOriginAt (avoid : Nat → Bool) (g : CactusGrid) (x : Nat) : CactusGrid :=
  if g.cctk_dim ≤ x then g
  else if avoid x then
    { g with cctk_origin_space :=
        updAt g.cctk_origin_space x (-(g.cctk_delta_space x) / 2) }
  else
    { g with cctk_origin_space :=
        updAt g.cctk_origin_space x (-(g.cctk_delta_space x)) }

/-- The countdown loop `for (; i >= 0; --i)` of `setupSymmetry`, adjusting
axis `x = i` in the quadrant case and `x = 2 - i` otherwise. -/
def symLoop (quadrant : Bool) (avoid : Nat → Bool) : Nat → CactusGrid → CactusGrid
  | 0, g => symOriginAt avoid g (if quadrant then 0 else 2)
  | i + 1, g =>
    symLoop quadrant avoid i
      (symOriginAt avoid g (if quadrant then i + 1 else 2 - (i + 1)))

/-- `ParParser::setupSymmetry` (parparser.cpp lines 190-225): dispatch on
the domain string (case-insensitively) to the loop start index, `full`
being a no-op and anything else the `"Unknown Domain"` error. -/
def setupSymmetry (domain : Bytes) (avoid : Nat → Bool) (g : CactusGrid) :
    Except ParError CactusGrid :=
  if iequals domain (bytes "bitant") then .ok (symLoop false avoid 0 g)
  else if iequals domain (bytes "quadrant") then .ok (symLoop true avoid 1 g)
  else if iequals domain (bytes "octant") then .ok (symLoop false avoid 2 g)
  else if iequals domain (bytes "full") then .ok g
  else .error (.unknownDomain domain)

/-- `ParParser::proceedCartGrid` (parparser.cpp lines 227-301): read type,
domain and the avoid-origin flags over their defaults, branch on the grid
type to fill `cctk_delta_space`/`cctk_origin_space`, then apply
`setupSymmetry`. In the `byspacing` origin formula the C++ expression
`m_avoidOrigin[i] * m_cctk_gsh[i] % 2` groups as
`(avoid[i] * gsh[i]) % 2` with the truncating `%` of C++ (`Int.tmod`). -/
def proceedCartGrid (m : Store) (g : CactusGrid) : Except ParError CactusGrid := do
  let dim := g.cctk_dim
  let gridType ← getP m "grid::type" fromStringWord (bytes "box")
  let domain ← getP m "grid::domain" fromStringWord (bytes "full")
  let avoidNSize ← getP m "grid::avoid_origin" fromStringBool true
  let a0' ← getP m "grid::avoid_originx" fromStringBool true
  let a1' ← getP m "grid::avoid_originy" fromStringBool true
  let a2' ← getP m "grid::avoid_originz" fromStringBool true
  let a0 := if ¬ avoidNSize then false else a0'
  let a1 := if ¬ avoidNSize then false else a1'
  let a2 := if ¬ avoidNSize then false else a2'
  let avoid := arr3 a0 a1 a2
  if iequals gridType (bytes "box") then
    let g1 := { g with
      cctk_origin_space := setAll dim (-(1 : ℚ)/2) g.cctk_origin_space }
    let g2 := { g1 with
      cctk_delta_space := fun i =>
        if i < dim then 1 / (g1.cctk_gsh i : ℚ) else g1.cctk_delta_space i }
    setupSymmetry domain avoid g2
  else if iequals gridType (bytes "byrange") then
    let xyzmax ← getP m "grid::xyzmax" fromStringRat (-424242)
    let xyzmin ← getP m "grid::xyzmin" fromStringRat (-424242)
    let mx0' ← getP m "grid::xmax" fromStringRat 1
    let mx1' ← getP m "grid::ymax" fromStringRat 1
    let mx2' ← getP m "grid::zmax" fromStringRat 1
    let mn0' ← getP m "grid::xmin" fromStringRat (-1)
    let mn1' ← getP m "grid::ymin" fromStringRat (-1)
    let mn2' ← getP m "grid::zmin" fromStringRat (-1)
    let mx := if xyzmax ≠ -424242 then arr3 xyzmax xyzmax xyzmax
              else arr3 mx0' mx1' mx2'
    let mn := if xyzmin ≠ -424242 then arr3 xyzmin xyzmin xyzmin
              else arr3 mn0' mn1' mn2'
    let g2 := { g with
      cctk_origin_space := fun i =>
        if i < dim then mn i else g.cctk_origin_space i
      cctk_delta_space := fun i =>
        if i < dim then (mx i - mn i) / ((g.cctk_gsh i : ℚ) - 1)
        else g.cctk_delta_space i }
    setupSymmetry domain avoid g2
  else if iequals gridType (bytes "byspacing") then
    let dxyz ← getP m "grid::dxyz" fromStringRat 0
    let d0' ← getP m "grid::dx" fromStringRat (3/10)
    let d1' ← getP m "grid::dy" fromStringRat (3/10)
    let d2' ← getP m "grid::dz" fromStringRat (3/10)
    let d0 := if dxyz > 0 then dxyz else d0'
    let d1 := if dxyz > 0 then dxyz else d1'
    let d2 := if dxyz > 0 then dxyz else d2'
    let d := arr3 d0 d1 d2
    let g2 := { g with
      cctk_delta_space := fun i =>
        if i < dim then d i else g.cctk_delta_space i
      cctk_origin_space := fun i =>
        if i < dim then
          -(1 : ℚ)/2 *
            (((g.cctk_gsh i - 1 -
               Int.tmod ((if avoid i then 1 else 0) * g.cctk_gsh i) 2 : Int)) : ℚ) *
            d i
        else g.cctk_origin_space i }
    setupSymmetry domain avoid g2
  else .error (.unknownGridType gridType)

/-- `ParParser::proceedTime` (parparser.cpp lines 303-335). The local
`delta_time` starts at 0 and is written to the hierarchy at the end of every
branch; in the `given` branch `CGETANDSET` stores the `timestep` value
directly, after which the final line overwrites it with the still-zero
local. `m_courant_speed` and `m_courant_min_time` keep their
`initThornDefaults` value 0 (no `GET` in this function reads them). The
floating `sqrt(dim)` of the two courant branches is the abstract argument
`fsqrt` (those branches also divide by the zero courant speed, which IEEE
doubles send to infinity; no claim touches them). -/
def proceedTime (fsqrt : Nat → ℚ) (m : Store) (g : CactusGrid) :
    Except ParError CactusGrid := do
  let timeMethod ← getP m "time::timestep_method" fromStringWord (bytes "courant_static")
  let dtfac ← getP m "time::dtfac" fromStringRat 0
  let courant_fac ← getP m "time::courant_fac" fromStringRat (9/10)
  if iequals timeMethod (bytes "given") then
    let g1 ←
      match getString m (bytes "timestep") with
      | none => pure g
      | some v => do
        let t ← fromStringRat v
        pure { g with cctk_delta_time := t }
    pure { g1 with cctk_delta_time := 0 }
  else if iequals timeMethod (bytes "courant_static") then
    pure { g with cctk_delta_time := dtfac * min_cctk_delta_space g }
  else if iequals timeMethod (bytes "courant_speed") then
    pure { g with cctk_delta_time :=
      courant_fac * min_cctk_delta_space g / 0 / fsqrt g.cctk_dim }
  else if iequals timeMethod (bytes "courant_time") then
    pure { g with cctk_delta_time := courant_fac * 0 / fsqrt g.cctk_dim }
  else .error (.unknownTimeMethod timeMethod)

/-! ## The parser object (`ParParser`) -/

/-- The dimension constant `CCTKGHDIM` handed to the `CactusGrid`
constructor. Modelled from the spec: the macro comes from a header that is
not under src/ (cell.h/init.h); the spec fixes the default dimension at 3. -/
def CCTKGHDIM : Nat := 3

/-- `ParParser::initCctkDefaults` (parparser.cpp lines 85-99): iteration 0,
time 0, refinement bookkeeping 1/0/1, boundary flags 0, ghost zones 1 (each
per-axis setter writing indices below the dimension). -/
def initCctkDefaults (g : CactusGrid) : CactusGrid :=
  { g with
    cctk_iteration := 0
    cctk_time := 0
    cctk_levfac := setAll g.cctk_dim 1 g.cctk_levfac
    cctk_levoff := setAll g.cctk_dim 0 g.cctk_levoff
    cctk_levoffdenom := setAll g.cctk_dim 1 g.cctk_levoffdenom
    cctk_bbox := setAll g.cctk_dim 0 g.cctk_bbox
    cctk_nghostzones := setAll g.cctk_dim 1 g.cctk_nghostzones }

/-- The parser state (`class ParParser`). The thorn-default scratch members
of `initThornDefaults` appear as the `getP` defaults inside the stages that
read them; `m_it_max` is uninitialized in C++ until `proceedCactus`,
modelled 0. `file` is the parameter source: `none` for a missing/unreadable
file, `some lines` for its lines. -/
structure ParParser where
  parsed : Bool
  file : Option (List Bytes)
  parMap : Store
  cctkGH : CactusGrid
  it_max : Int
  hdf5_out : Int

/-- The constructors `ParParser(const char*)` / `ParParser(const
std::string&)`: `m_parsed = false`, a fresh `CactusGrid(CCTKGHDIM)`, and
`initDefaults()`. -/
def mkParParser (file : Option (List Bytes)) : ParParser where
  parsed := false
  file := file
  parMap := []
  cctkGH := initCctkDefaults (emptyGrid CCTKGHDIM)
  it_max := 0
  hdf5_out := 0

/-- `ParParser::parse` (parparser.cpp lines 391-429): fail without a file;
feed every line to `parseLine`; run `prepareValues` once over the full
store; run the resolver stages in order; finally set `m_parsed`.
`SETUPTHORNPARAMETERS` is modelled from the spec: the macro comes from
parameter.h (not under src/) and applies thorn-specific parameters the
spec places outside the core pipeline, so it is a no-op here. -/
def ParParser.parse (p : ParParser) (fsqrt : Nat → ℚ) : Except ParError ParParser :=
  match p.file with
  | none => .error .noFile
  | some lines => do
    let m ← parseLines lines p.parMap
    let m' := prepareValues m
    let it ← proceedCactus m' p.it_max
    let g1 ← proceedPUGH m' p.cctkGH
    let g2 ← proceedCartGrid m' g1
    let g3 ← proceedTime fsqrt m' g2
    pure { p with parsed := true, parMap := m', cctkGH := g3, it_max := it }

/-- `ParParser::getCctkGH` (parparser.h lines 214-220): `logic_error`
unless `m_parsed`. -/
def ParParser.getCctkGH (p : ParParser) : Except ParError CactusGrid :=
  if ¬ p.parsed then .error .logicParseFirst else .ok p.cctkGH

/-- `ParParser::itMax` (parparser.h lines 227-233). -/
def ParParser.itMax (p : ParParser) : Except ParError Int :=
  if ¬ p.parsed then .error .logicParseFirst else .ok p.it_max

/-- `ParParser::Hdf5Out` (parparser.h lines 240-246). -/
def ParParser.hdf5Out (p : ParParser) : Except ParError Int :=
  if ¬ p.parsed then .error .logicParseFirst else .ok p.hdf5_out

/-! ## Spec-side definitions and fixtures -/

/-- The value normalization as the SPEC words it (§4.2), for comparison
with `normalizeValue`: an if/else-if chain over the trimmed, quote-free
value, rather than the source's two sequential rewrites. -/
def specNormalize (v : Bytes) : Bytes :=
  let w := trimB (eraseQuotes v)
  if iequals w (bytes "yes") ∨ iequals w (bytes "y") ∨
     iequals w (bytes "true") ∨ iequals w (bytes "t")
  then bytes "1"
  else if iequals w (bytes "no") ∨ iequals w (bytes "n") ∨
          iequals w (bytes "false") ∨ iequals w (bytes "f")
  then bytes "0"
  else w

/-- The origin value a symmetry adjustment writes at axis `x`:
`-spacing/2` when avoid-origin is set for `x`, `-spacing` otherwise
(the two assignments of the `setupSymmetry` loop body). -/
def symVal (a : Nat → Bool) (g : CactusGrid) (x : Nat) : ℚ :=
  if a x then -(g.cctk_delta_space x) / 2 else -(g.cctk_delta_space x)

/-- A concrete 3-dimensional hierarchy used by witnesses: global/local size
10 per axis, spacings 0.2, 0.1, 0.3. -/
def exGrid : CactusGrid :=
  { emptyGrid 3 with
    cctk_gsh := arr3 10 10 10
    cctk_lsh := arr3 10 10 10
    cctk_delta_space := arr3 (2/10) (1/10) (3/10)
    cctk_origin_space := arr3 1 1 1 }

end Cactus

namespace Cactus

example : bytes "abc" = [97, 98, 99] := by decide

example : matchParameter (bytes "Foo::Bar = Baz ") =
    some (bytes "foo::bar", bytes "Baz ") := by decide

example : matchParameter (bytes "ActiveThorns = \"a b\"") =
    some (bytes "activethorns", bytes "\"a b\"") := by decide

example : matchParameter (bytes "foo bar") = none := by decide

example : normalizeValue (bytes "  \"Yes\"  ") = bytes "1" := by decide

/-! ## Helper lemmas -/

lemma iequals_eq_true_iff (s t : Bytes) :
    iequals s t = true ↔ toLowerB s = toLowerB t := by
  simp [iequals]

lemma lowerByte_idem (b : Nat) : lowerByte (lowerByte b) = lowerByte b := by
  unfold lowerByte
  split_ifs <;> omega

lemma toLowerB_idem (s : Bytes) : toLowerB (toLowerB s) = toLowerB s := by
  simp [toLowerB, List.map_map, Function.comp_def, lowerByte_idem]

lemma iequals_false_of (s t u : Bytes) (h : iequals s t = true)
    (hne : toLowerB t ≠ toLowerB u) : iequals s u = false := by
  rw [iequals_eq_true_iff] at h
  simp [iequals, h]
  exact hne

lemma symOriginAt_preserves (a : Nat → Bool) (g : CactusGrid) (x : Nat) :
    (symOriginAt a g x).cctk_dim = g.cctk_dim
    ∧ (symOriginAt a g x).cctk_delta_space = g.cctk_delta_space
    ∧ (symOriginAt a g x).cctk_gsh = g.cctk_gsh
    ∧ (symOriginAt a g x).cctk_lsh = g.cctk_lsh
    ∧ (symOriginAt a g x).cctk_delta_time = g.cctk_delta_time := by
  unfold symOriginAt
  split_ifs <;> exact ⟨rfl, rfl, rfl, rfl, rfl⟩

lemma symLoop_preserves (q : Bool) (a : Nat → Bool) :
    ∀ (i : Nat) (g : CactusGrid),
      (symLoop q a i g).cctk_dim = g.cctk_dim
      ∧ (symLoop q a i g).cctk_delta_space = g.cctk_delta_space
      ∧ (symLoop q a i g).cctk_gsh = g.cctk_gsh
      ∧ (symLoop q a i g).cctk_lsh = g.cctk_lsh
      ∧ (symLoop q a i g).cctk_delta_time = g.cctk_delta_time := by
  intro i
  induction i with
  | zero =>
    intro g
    simpa [symLoop] using symOriginAt_preserves a g (if q then 0 else 2)
  | succ n ih =>
    intro g
    have h1 := symOriginAt_preserves a g (if q then n + 1 else 2 - (n + 1))
    have h2 := ih (symOriginAt a g (if q then n + 1 else 2 - (n + 1)))
    simp only [symLoop]
    exact ⟨h2.1.trans h1.1, h2.2.1.trans h1.2.1, h2.2.2.1.trans h1.2.2.1,
      h2.2.2.2.1.trans h1.2.2.2.1, h2.2.2.2.2.trans h1.2.2.2.2⟩

lemma setupSymmetry_preserves (d : Bytes) (a : Nat → Bool) (g g' : CactusGrid)
    (h : setupSymmetry d a g = .ok g') :
    g'.cctk_dim = g.cctk_dim ∧ g'.cctk_delta_space = g.cctk_delta_space := by
  unfold setupSymmetry at h
  split_ifs at h <;> first
  | (cases h; exact ⟨(symLoop_preserves _ _ _ _).1, (symLoop_preserves _ _ _ _).2.1⟩)
  | (cases h; exact ⟨rfl, rfl⟩)

/-! ## Claims -/

/-- C3: the boundary-flag array is allocated with exactly `2×dimension`
elements (`bbox_alloc_len`), yet `copyData` — the copy routine `operator=`
and the copy constructor both use — iterates over boundary-flag indices
`0` through `2×dimension` inclusive (`2×dimension + 1` of them): every
index below `2×dimension + 1` is copied from the source, indices from
`2×dimension + 1` on are untouched, and the last copied index
`2×dimension` is not below the allocated length, i.e. the final iteration
reads (from `rhs`) and writes (in the destination) one element past the
allocated bound of both arrays. -/
theorem copyData_bbox_off_by_one (g rhs : CactusGrid) :
    bbox_alloc_len g.cctk_dim = 2 * g.cctk_dim
    ∧ (∀ i, i < bbox_alloc_len g.cctk_dim + 1 →
        (copyData g rhs).cctk_bbox i = rhs.cctk_bbox i)
    ∧ (∀ i, bbox_alloc_len g.cctk_dim + 1 ≤ i →
        (copyData g rhs).cctk_bbox i = g.cctk_bbox i)
    ∧ (copyData g rhs).cctk_bbox (bbox_alloc_len g.cctk_dim) =
        rhs.cctk_bbox (bbox_alloc_len g.cctk_dim)
    ∧ ¬ bbox_alloc_len g.cctk_dim < bbox_alloc_len g.cctk_dim
    ∧ (assign g rhs).cctk_bbox (bbox_alloc_len rhs.cctk_dim) =
        rhs.cctk_bbox (bbox_alloc_len rhs.cctk_dim)
    ∧ (copyCtor rhs).cctk_bbox (bbox_alloc_len rhs.cctk_dim) =
        rhs.cctk_bbox (bbox_alloc_len rhs.cctk_dim) := by
  refine ⟨rfl, ?_, ?_, ?_, by omega, ?_, ?_⟩
  · intro i hi
    simp only [copyData, bbox_alloc_len] at *
    rw [if_pos (by omega)]
  · intro i hi
    simp only [copyData, bbox_alloc_len] at *
    rw [if_neg (by omega)]
  · simp only [copyData, bbox_alloc_len]
    rw [if_pos (by omega)]
  · unfold assign
    split_ifs with h
    · simp only [copyData, bbox_alloc_len]
      rw [if_pos (by omega)]
    · simp only [copyData, bbox_alloc_len, h]
      rw [if_pos (by omega)]
  · simp only [copyCtor, copyData, emptyGrid, bbox_alloc_len]
    rw [if_pos (by omega)]

/-- Witness for C3 at the concrete 3-dimensional `exGrid`: index 6 (the
allocated length `2×3`) is copied by `copyData`, although it is not below
the allocated length. -/
theorem copyData_bbox_off_by_one_witness :
    (copyData exGrid exGrid).cctk_bbox 6 = exGrid.cctk_bbox 6
    ∧ ¬ (6 < bbox_alloc_len 3) :=
  ⟨(copyData_bbox_off_by_one exGrid exGrid).2.1 6 (by decide), by decide⟩

/-- C9: `set_cctk_dim` to a value at most the old dimension truncates in
place, leaving every per-axis value (in particular those below the new
dimension) unchanged; to a larger value it reallocates and copies, so every
per-axis value at an index below the old dimension is retained. -/
theorem set_cctk_dim_keeps_overlap (g : CactusGrid) (n : Nat) :
    (n ≤ g.cctk_dim →
      set_cctk_dim g n = { g with cctk_dim := n }
      ∧ ∀ i, i < n →
          (set_cctk_dim g n).cctk_gsh i = g.cctk_gsh i
          ∧ (set_cctk_dim g n).cctk_lsh i = g.cctk_lsh i
          ∧ (set_cctk_dim g n).cctk_lbnd i = g.cctk_lbnd i
          ∧ (set_cctk_dim g n).cctk_ubnd i = g.cctk_ubnd i
          ∧ (set_cctk_dim g n).cctk_delta_space i = g.cctk_delta_space i
          ∧ (set_cctk_dim g n).cctk_origin_space i = g.cctk_origin_space i
          ∧ (set_cctk_dim g n).cctk_levfac i = g.cctk_levfac i
          ∧ (set_cctk_dim g n).cctk_levoff i = g.cctk_levoff i
          ∧ (set_cctk_dim g n).cctk_levoffdenom i = g.cctk_levoffdenom i
          ∧ (set_cctk_dim g n).cctk_nghostzones i = g.cctk_nghostzones i)
    ∧ (g.cctk_dim < n →
      (set_cctk_dim g n).cctk_dim = n
      ∧ ∀ i, i < g.cctk_dim →
          (set_cctk_dim g n).cctk_gsh i = g.cctk_gsh i
          ∧ (set_cctk_dim g n).cctk_lsh i = g.cctk_lsh i
          ∧ (set_cctk_dim g n).cctk_lbnd i = g.cctk_lbnd i
          ∧ (set_cctk_dim g n).cctk_ubnd i = g.cctk_ubnd i
          ∧ (set_cctk_dim g n).cctk_delta_space i = g.cctk_delta_space i
          ∧ (set_cctk_dim g n).cctk_origin_space i = g.cctk_origin_space i
          ∧ (set_cctk_dim g n).cctk_levfac i = g.cctk_levfac i
          ∧ (set_cctk_dim g n).cctk_levoff i = g.cctk_levoff i
          ∧ (set_cctk_dim g n).cctk_levoffdenom i = g.cctk_levoffdenom i
          ∧ (set_cctk_dim g n).cctk_nghostzones i = g.cctk_nghostzones i) := by
  constructor
  · intro h
    have hdef : set_cctk_dim g n = { g with cctk_dim := n } := by
      unfold set_cctk_dim
      rw [if_pos h]
    refine ⟨hdef, ?_⟩
    intro i _
    rw [hdef]
    exact ⟨rfl, rfl, rfl, rfl, rfl, rfl, rfl, rfl, rfl, rfl⟩
  · intro h
    have hneg : ¬ n ≤ g.cctk_dim := by omega
    have hdef : set_cctk_dim g n =
        { copyData (allocArrays g) (copyCtor g) with cctk_dim := n } := by
      unfold set_cctk_dim
      rw [if_neg hneg]
    refine ⟨by rw [hdef], ?_⟩
    intro i hi
    rw [hdef]
    simp [copyData, copyCtor, allocArrays, emptyGrid, hi]

/-- Witness for C9 at the concrete `exGrid` (dimension 3): truncation to 2
keeps the whole state but the dimension; growth to 5 keeps the spacing at
axis 1. -/
theorem set_cctk_dim_keeps_overlap_witness :
    set_cctk_dim exGrid 2 = { exGrid with cctk_dim := 2 }
    ∧ (set_cctk_dim exGrid 5).cctk_dim = 5
    ∧ (set_cctk_dim exGrid 5).cctk_delta_space 1 = exGrid.cctk_delta_space 1 :=
  ⟨((set_cctk_dim_keeps_overlap exGrid 2).1 (by decide)).1,
   ((set_cctk_dim_keeps_overlap exGrid 5).2 (by decide)).1,
   (((set_cctk_dim_keeps_overlap exGrid 5).2 (by decide)).2 1
      (by decide)).2.2.2.2.1⟩

/-- C7: a line that is neither a comment (optional whitespace then `#` or
`!`) nor blank (whitespace-only) nor an assignment
(`identifier :: identifier`, or the case-insensitive keyword
`ActiveThorns`, then `=` and the rest of the line) makes the parse fail
with the syntax error carrying that line, whatever lines follow and
whatever is already stored — no further line is processed; in particular
the line `foo bar` does, even between two well-formed lines. -/
theorem parseLines_syntax_error :
    (∀ (m : Store) (ls : List Bytes) (line : Bytes),
        isCommentLine line = false → isEmptyLine line = false →
        matchParameter line = none →
        parseLines (line :: ls) m = .error (.syntaxError line))
    ∧ parseLines
        [bytes "grid::type = box", bytes "foo bar", bytes "time::dtfac = 1"] []
        = .error (.syntaxError (bytes "foo bar")) := by
  constructor
  · intro m ls line hc he hp
    simp [parseLines, parseLine, hc, he, hp]
  · decide

/-- Witness for C7 at the line `foo bar`: it falls in none of the three
classes and aborts the parse with the syntax error carrying it. -/
theorem parseLines_syntax_error_witness :
    isCommentLine (bytes "foo bar") = false
    ∧ isEmptyLine (bytes "foo bar") = false
    ∧ matchParameter (bytes "foo bar") = none
    ∧ parseLines [bytes "foo bar", bytes "a::b = 1"] []
        = .error (.syntaxError (bytes "foo bar")) :=
  ⟨by decide, by decide, by decide,
    parseLines_syntax_error.1 [] [bytes "a::b = 1"] (bytes "foo bar")
      (by decide) (by decide) (by decide)⟩

lemma afterKey_key (nm rest k v : Bytes) (h : afterKey nm rest = some (k, v)) :
    k = toLowerB nm := by
  unfold afterKey at h
  cases hds : dropSpaces rest with
  | nil => rw [hds] at h; exact Option.noConfusion h
  | cons b r =>
    simp only [hds] at h
    by_cases hb : b = 61
    · rw [if_pos hb] at h
      injection h with h'
      cases h'
      rfl
    · rw [if_neg hb] at h
      exact Option.noConfusion h

lemma matchQualified_key_lower (s k v : Bytes)
    (h : matchQualified s = some (k, v)) : toLowerB k = k := by
  unfold matchQualified at h
  by_cases hw : s.takeWhile isWordByte = []
  · rw [if_pos hw] at h; exact Option.noConfusion h
  · rw [if_neg hw] at h
    cases hds : s.dropWhile isWordByte with
    | nil => rw [hds] at h; exact Option.noConfusion h
    | cons b1 r1 =>
      cases r1 with
      | nil => rw [hds] at h; exact Option.noConfusion h
      | cons b2 r2 =>
        simp only [hds] at h
        by_cases hbb : b1 = 58 ∧ b2 = 58
        · rw [if_pos hbb] at h
          by_cases hw2 : r2.takeWhile isWordByte = []
          · rw [if_pos hw2] at h; exact Option.noConfusion h
          · rw [if_neg hw2] at h
            rw [afterKey_key _ _ _ _ h]
            exact toLowerB_idem _
        · rw [if_neg hbb] at h
          exact Option.noConfusion h

lemma matchActiveThorns_key_lower (s k v : Bytes)
    (h : matchActiveThorns s = some (k, v)) : toLowerB k = k := by
  unfold matchActiveThorns at h
  by_cases hp : toLowerB (s.take 12) = bytes "activethorns"
  · rw [if_pos hp] at h
    rw [afterKey_key _ _ _ _ h]
    exact toLowerB_idem _
  · rw [if_neg hp] at h
    exact Option.noConfusion h

lemma matchParameter_key_lower (line k v : Bytes)
    (h : matchParameter line = some (k, v)) : toLowerB k = k := by
  unfold matchParameter at h
  cases hq : matchQualified (dropSpaces line) with
  | some kv =>
    simp only [hq] at h
    rw [h] at hq
    exact matchQualified_key_lower _ _ _ hq
  | none =>
    simp only [hq] at h
    exact matchActiveThorns_key_lower _ _ _ h

lemma storeSet_keys_lower (k v : Bytes) (hk : toLowerB k = k) :
    ∀ (m : Store), (∀ kv ∈ m, toLowerB kv.1 = kv.1) →
      ∀ kv ∈ storeSet m k v, toLowerB kv.1 = kv.1 := by
  intro m
  induction m with
  | nil =>
    intro _ kv hkv
    simp only [storeSet, List.mem_singleton] at hkv
    rw [hkv]
    exact hk
  | cons hd tl ih =>
    intro hm kv hkv
    rw [show storeSet (hd :: tl) k v =
          if hd.1 = k then (k, v) :: tl
          else hd :: storeSet tl k v from by
        rcases hd with ⟨k', v'⟩; rfl] at hkv
    by_cases hh : hd.1 = k
    · rw [if_pos hh] at hkv
      rcases List.mem_cons.mp hkv with h1 | h2
      · rw [h1]; exact hk
      · exact hm kv (List.mem_cons_of_mem hd h2)
    · rw [if_neg hh] at hkv
      rcases List.mem_cons.mp hkv with h1 | h2
      · rw [h1]; exact hm hd (List.mem_cons_self hd tl)
      · exact ih (fun kv' hkv' => hm kv' (List.mem_cons_of_mem hd hkv')) kv h2

lemma parseLine_keys_lower (m m' : Store) (line : Bytes)
    (h : parseLine m line = .ok m')
    (hm : ∀ kv ∈ m, toLowerB kv.1 = kv.1) :
    ∀ kv ∈ m', toLowerB kv.1 = kv.1 := by
  unfold parseLine at h
  by_cases hc : isCommentLine line = true
  · rw [if_pos hc] at h; cases h; exact hm
  · rw [if_neg hc] at h
    by_cases he : isEmptyLine line = true
    · rw [if_pos he] at h; cases h; exact hm
    · rw [if_neg he] at h
      cases hp : matchParameter line with
      | some kv =>
        rcases kv with ⟨k, v⟩
        rw [hp] at h
        cases h
        exact storeSet_keys_lower k v (matchParameter_key_lower _ _ _ hp) m hm
      | none => rw [hp] at h; exact Except.noConfusion h

lemma parseLines_keys_lower :
    ∀ (lines : List Bytes) (m0 m : Store),
      parseLines lines m0 = .ok m →
      (∀ kv ∈ m0, toLowerB kv.1 = kv.1) →
      ∀ kv ∈ m, toLowerB kv.1 = kv.1 := by
  intro lines
  induction lines with
  | nil =>
    intro m0 m h h0
    cases h
    exact h0
  | cons l ls ih =>
    intro m0 m h h0
    unfold parseLines at h
    cases hp : parseLine m0 l with
    | error e => rw [hp] at h; exact Except.noConfusion h
    | ok m1 =>
      rw [hp] at h
      exact ih m1 m h (parseLine_keys_lower m0 m1 l hp h0)

lemma storeFind?_isSome_of_mem (k v : Bytes) :
    ∀ (m : Store), (k, v) ∈ m → (storeFind? m k).isSome = true := by
  intro m
  induction m with
  | nil => intro h; cases h
  | cons hd tl ih =>
    intro hm
    rw [show storeFind? (hd :: tl) k =
          if hd.1 = k then some hd.2 else storeFind? tl k from by
        rcases hd with ⟨k', v'⟩; rfl]
    by_cases hh : hd.1 = k
    · rw [if_pos hh]; rfl
    · rw [if_neg hh]
      rcases List.mem_cons.mp hm with h1 | h2
      · exact absurd (congrArg Prod.fst h1.symm) hh
      · exact ih h2

/-- C8: every key the line parser stores is fully lower-case whatever the
input case; `exists` and `getString` lower-case the query, so two queries
with the same lower-casing agree; hence an entry stored from mixed-case
input is found by any casing of the query. -/
theorem store_keys_lower_caseless :
    (∀ (lines : List Bytes) (m : Store),
        parseLines lines [] = .ok m → ∀ kv ∈ m, toLowerB kv.1 = kv.1)
    ∧ (∀ (m : Store) (q q' : Bytes), toLowerB q = toLowerB q' →
        keyExists m q = keyExists m q' ∧ getString m q = getString m q')
    ∧ (∀ (lines : List Bytes) (m : Store) (k v q : Bytes),
        parseLines lines [] = .ok m → (k, v) ∈ m → toLowerB q = k →
        keyExists m q = true) := by
  refine ⟨?_, ?_, ?_⟩
  · intro lines m h
    exact parseLines_keys_lower lines [] m h (by intro kv h; cases h)
  · intro m q q' hqq
    unfold keyExists getString
    rw [hqq]
    exact ⟨rfl, rfl⟩
  · intro lines m k v q _ hmem hq
    unfold keyExists
    rw [hq]
    exact storeFind?_isSome_of_mem k v m hmem

/-- Witness for C8: the mixed-case line `Foo::Bar = 1` stores the
lower-case key `foo::bar`, which the query `FOO::bar` finds. -/
theorem store_keys_lower_caseless_witness :
    toLowerB (bytes "foo::bar") = bytes "foo::bar"
    ∧ keyExists [(bytes "foo::bar", bytes "1")] (bytes "FOO::bar") = true :=
  ⟨store_keys_lower_caseless.1 [bytes "Foo::Bar = 1"]
      [(bytes "foo::bar", bytes "1")] (by decide)
      (bytes "foo::bar", bytes "1") (by decide),
   store_keys_lower_caseless.2.2 [bytes "Foo::Bar = 1"]
      [(bytes "foo::bar", bytes "1")] (bytes "foo::bar") (bytes "1")
      (bytes "FOO::bar") (by decide) (by decide) (by decide)⟩

lemma bind_ok {ε α β : Type} (a : α) (f : α → Except ε β) :
    (Except.ok a >>= f) = f a := rfl

lemma bind_err {ε α β : Type} (e : ε) (f : α → Except ε β) :
    ((Except.error e : Except ε α) >>= f) = Except.error e := rfl

/-- C6: `prepareValues` rewrites every stored value — and only values — by
removing double quotes, trimming whitespace, then case-insensitively
canonicalizing whole-value booleans exactly as the spec's if/else-if chain
(`specNormalize`) describes; `parse` runs it exactly once, after the whole
file is consumed (on the full `parseLines` result) and before any resolver
reads the store, which therefore holds `prepareValues` of the raw parse;
and the spec's examples hold. -/
theorem prepareValues_contract :
    (∀ v, normalizeValue v = specNormalize v)
    ∧ (∀ m : Store, prepareValues m = m.map (fun kv => (kv.1, normalizeValue kv.2)))
    ∧ (∀ (p : ParParser) (fsq : Nat → ℚ) (lines : List Bytes) (m : Store)
        (p' : ParParser),
        p.file = some lines → parseLines lines p.parMap = .ok m →
        p.parse fsq = .ok p' → p'.parMap = prepareValues m)
    ∧ normalizeValue (bytes "  \"Yes\"  ") = bytes "1"
    ∧ normalizeValue (bytes "N") = bytes "0" := by
  refine ⟨?_, fun _ => rfl, ?_, by decide, by decide⟩
  · intro v
    simp only [normalizeValue, boolCanon, specNormalize]
    by_cases h1 : (iequals (trimB (eraseQuotes v)) (bytes "yes")
        ∨ iequals (trimB (eraseQuotes v)) (bytes "y")
        ∨ iequals (trimB (eraseQuotes v)) (bytes "true")
        ∨ iequals (trimB (eraseQuotes v)) (bytes "t"))
    · rw [if_pos h1, if_pos h1, if_neg (by decide)]
    · rw [if_neg h1, if_neg h1]
  · intro p fsq lines m p' hfile hlines hparse
    unfold ParParser.parse at hparse
    rw [hfile] at hparse
    simp only [hlines, bind_ok] at hparse
    cases hc : proceedCactus (prepareValues m) p.it_max with
    | error e => rw [hc] at hparse; exact Except.noConfusion hparse
    | ok it =>
      simp only [hc, bind_ok] at hparse
      cases h1 : proceedPUGH (prepareValues m) p.cctkGH with
      | error e => rw [h1] at hparse; exact Except.noConfusion hparse
      | ok g1 =>
        simp only [h1, bind_ok] at hparse
        cases h2 : proceedCartGrid (prepareValues m) g1 with
        | error e => rw [h2] at hparse; exact Except.noConfusion hparse
        | ok g2 =>
          simp only [h2, bind_ok] at hparse
          cases h3 : proceedTime fsq (prepareValues m) g2 with
          | error e => rw [h3] at hparse; exact Except.noConfusion hparse
          | ok g3 =>
            simp only [h3, bind_ok] at hparse
            cases hparse
            rfl

/-- Witness for C6 at concrete values: the two boolean examples of the
spec, and the source normalizer agreeing with the spec's chain on an
ordinary quoted value. -/
theorem prepareValues_contract_witness :
    normalizeValue (bytes "  \"Yes\"  ") = bytes "1"
    ∧ normalizeValue (bytes "N") = bytes "0"
    ∧ normalizeValue (bytes " \"box\" ") = specNormalize (bytes " \"box\" ") :=
  ⟨prepareValues_contract.2.2.2.1, prepareValues_contract.2.2.2.2,
   prepareValues_contract.1 (bytes " \"box\" ")⟩

lemma symOriginAt_origin_apply (a : Nat → Bool) (g : CactusGrid) (x j : Nat) :
    (symOriginAt a g x).cctk_origin_space j =
      if j = x ∧ x < g.cctk_dim then symVal a g x
      else g.cctk_origin_space j := by
  unfold symOriginAt symVal updAt
  by_cases hd : g.cctk_dim ≤ x
  · rw [if_pos hd, if_neg (fun c => absurd c.2 (by omega))]
  · rw [if_neg hd]
    by_cases ha : a x = true
    · rw [if_pos ha]
      show (if j = x then -(g.cctk_delta_space x) / 2
        else g.cctk_origin_space j) = _
      by_cases hj : j = x
      · rw [if_pos hj, if_pos ⟨hj, by omega⟩, if_pos ha]
      · rw [if_neg hj, if_neg (fun c => hj c.1)]
    · rw [if_neg ha]
      show (if j = x then -(g.cctk_delta_space x)
        else g.cctk_origin_space j) = _
      by_cases hj : j = x
      · rw [if_pos hj, if_pos ⟨hj, by omega⟩, if_neg ha]
      · rw [if_neg hj, if_neg (fun c => hj c.1)]

lemma symOriginAt_as_update (a : Nat → Bool) (g : CactusGrid) (x : Nat) :
    symOriginAt a g x =
      { g with cctk_origin_space := fun j =>
          if j = x ∧ x < g.cctk_dim then symVal a g x
          else g.cctk_origin_space j } := by
  have h1 : symOriginAt a g x =
      { g with cctk_origin_space := (symOriginAt a g x).cctk_origin_space } := by
    unfold symOriginAt
    split_ifs <;> rfl
  rw [h1, funext (symOriginAt_origin_apply a g x)]

/-- C2: the symmetry adjustment leaves `full` unchanged; for `bitant` it
adjusts exactly axis 2, for `quadrant` exactly axes 0 and 1, for `octant`
exactly axes 0, 1, 2 — each axis only when below the configured dimension,
the adjusted origin being `-spacing/2` where avoid-origin is set and
`-spacing` otherwise (`symVal`), every other entry untouched; any other
domain string raises the configuration error naming that domain. -/
theorem setupSymmetry_spec (a : Nat → Bool) (g : CactusGrid) :
    setupSymmetry (bytes "full") a g = .ok g
    ∧ setupSymmetry (bytes "bitant") a g =
        .ok { g with cctk_origin_space := fun x =>
          if x = 2 ∧ 2 < g.cctk_dim then symVal a g 2
          else g.cctk_origin_space x }
    ∧ setupSymmetry (bytes "quadrant") a g =
        .ok { g with cctk_origin_space := fun x =>
          if x = 0 ∧ 0 < g.cctk_dim then symVal a g 0
          else if x = 1 ∧ 1 < g.cctk_dim then symVal a g 1
          else g.cctk_origin_space x }
    ∧ setupSymmetry (bytes "octant") a g =
        .ok { g with cctk_origin_space := fun x =>
          if x = 2 ∧ 2 < g.cctk_dim then symVal a g 2
          else if x = 1 ∧ 1 < g.cctk_dim then symVal a g 1
          else if x = 0 ∧ 0 < g.cctk_dim then symVal a g 0
          else g.cctk_origin_space x }
    ∧ (∀ d : Bytes,
        iequals d (bytes "bitant") = false →
        iequals d (bytes "quadrant") = false →
        iequals d (bytes "octant") = false →
        iequals d (bytes "full") = false →
        setupSymmetry d a g = .error (.unknownDomain d)) := by
  refine ⟨?_, ?_, ?_, ?_, ?_⟩
  · unfold setupSymmetry
    rw [if_neg (by decide), if_neg (by decide), if_neg (by decide),
      if_pos (by decide)]
  · unfold setupSymmetry
    rw [if_pos (by decide)]
    show Except.ok (symOriginAt a g 2) = _
    rw [symOriginAt_as_update]
  · unfold setupSymmetry
    rw [if_neg (by decide), if_pos (by decide)]
    show Except.ok (symOriginAt a (symOriginAt a g 1) 0) = _
    rw [symOriginAt_as_update a g 1, symOriginAt_as_update]
    rfl
  · unfold setupSymmetry
    rw [if_neg (by decide), if_neg (by decide), if_pos (by decide)]
    show Except.ok
        (symOriginAt a (symOriginAt a (symOriginAt a g 0) 1) 2) = _
    rw [symOriginAt_as_update a g 0]
    rw [symOriginAt_as_update a _ 1]
    rw [symOriginAt_as_update]
    rfl
  · intro d h1 h2 h3 h4
    unfold setupSymmetry
    rw [if_neg (by simp [h1]), if_neg (by simp [h2]), if_neg (by simp [h3]),
      if_neg (by simp [h4])]

/-- Witness for C2: on the concrete `exGrid`, domain `full` changes
nothing and the unrecognized domain `cube` raises the error naming it. -/
theorem setupSymmetry_spec_witness :
    setupSymmetry (bytes "full") (arr3 true true true) exGrid = .ok exGrid
    ∧ setupSymmetry (bytes "cube") (arr3 true true true) exGrid
        = .error (.unknownDomain (bytes "cube")) :=
  ⟨(setupSymmetry_spec (arr3 true true true) exGrid).1,
   (setupSymmetry_spec (arr3 true true true) exGrid).2.2.2.2 (bytes "cube")
      (by decide) (by decide) (by decide) (by decide)⟩

/-- C1: in `proceedPUGH`, when the three per-axis local sizes resolved from
the store (the uniform `driver::local_nsize` overriding all three when
positive, else the per-axis `driver::local_n{x,y,z}` values) are all
positive, both `cctk_gsh` and `cctk_lsh` are set to those local values at
every axis below the configured dimension, and the values read from the
global-size keys (`gns`, `gx`, `gy`, `gz` below — arbitrary) do not appear
in the result: local size wins outright. -/
theorem proceedPUGH_local_precedence (m : Store) (g : CactusGrid)
    (gns gx gy gz lns lx ly lz : Int)
    (_hdim : g.cctk_dim ≤ 3)
    (hgns : getP m "driver::global_nsize" fromStringInt (-1) = .ok gns)
    (hgx : getP m "driver::global_nx" fromStringInt 10 = .ok gx)
    (hgy : getP m "driver::global_ny" fromStringInt 10 = .ok gy)
    (hgz : getP m "driver::global_nz" fromStringInt 10 = .ok gz)
    (hlns : getP m "driver::local_nsize" fromStringInt (-1) = .ok lns)
    (hlx : getP m "driver::local_nx" fromStringInt (-1) = .ok lx)
    (hly : getP m "driver::local_ny" fromStringInt (-1) = .ok ly)
    (hlz : getP m "driver::local_nz" fromStringInt (-1) = .ok lz)
    (hpos : 0 < (if lns > 0 then lns else lx)
      ∧ 0 < (if lns > 0 then lns else ly)
      ∧ 0 < (if lns > 0 then lns else lz)) :
    proceedPUGH m g = .ok { g with
      cctk_gsh := fun i => if i < g.cctk_dim then
          arr3 (if lns > 0 then lns else lx) (if lns > 0 then lns else ly)
            (if lns > 0 then lns else lz) i
        else g.cctk_gsh i
      cctk_lsh := fun i => if i < g.cctk_dim then
          arr3 (if lns > 0 then lns else lx) (if lns > 0 then lns else ly)
            (if lns > 0 then lns else lz) i
        else g.cctk_lsh i }
    ∧ ∀ i, i < g.cctk_dim →
        (proceedPUGH m g).map (fun q => q.cctk_gsh i)
          = .ok (arr3 (if lns > 0 then lns else lx) (if lns > 0 then lns else ly)
              (if lns > 0 then lns else lz) i)
        ∧ (proceedPUGH m g).map (fun q => q.cctk_lsh i)
          = .ok (arr3 (if lns > 0 then lns else lx) (if lns > 0 then lns else ly)
              (if lns > 0 then lns else lz) i) := by
  have hmain : proceedPUGH m g = .ok { g with
      cctk_gsh := fun i => if i < g.cctk_dim then
          arr3 (if lns > 0 then lns else lx) (if lns > 0 then lns else ly)
            (if lns > 0 then lns else lz) i
        else g.cctk_gsh i
      cctk_lsh := fun i => if i < g.cctk_dim then
          arr3 (if lns > 0 then lns else lx) (if lns > 0 then lns else ly)
            (if lns > 0 then lns else lz) i
        else g.cctk_lsh i } := by
    unfold proceedPUGH
    simp only [hgns, hgx, hgy, hgz, hlns, hlx, hly, hlz, bind_ok]
    rw [if_pos ⟨hpos.1, hpos.2.1, hpos.2.2⟩]
    rfl
  refine ⟨hmain, ?_⟩
  intro i hi
  rw [hmain]
  constructor <;> simp [Except.map, hi]

/-- Witness for C1: with `driver::local_nsize = 4` and a competing
`driver::global_nsize = 7` in the store, both sizes at axis 0 resolve
to 4. -/
theorem proceedPUGH_local_precedence_witness :
    (proceedPUGH [(bytes "driver::local_nsize", bytes "4"),
        (bytes "driver::global_nsize", bytes "7")] exGrid).map
      (fun q => q.cctk_gsh 0) = .ok 4
    ∧ (proceedPUGH [(bytes "driver::local_nsize", bytes "4"),
        (bytes "driver::global_nsize", bytes "7")] exGrid).map
      (fun q => q.cctk_lsh 0) = .ok 4 := by
  have h := (proceedPUGH_local_precedence
    [(bytes "driver::local_nsize", bytes "4"),
     (bytes "driver::global_nsize", bytes "7")] exGrid
    7 10 10 10 4 (-1) (-1) (-1)
    (by decide) (by decide) (by decide) (by decide) (by decide) (by decide)
    (by decide) (by decide) (by decide) (by decide)).2 0 (by decide)
  refine ⟨?_, ?_⟩
  · rw [h.1]; decide
  · rw [h.2]; decide

lemma minFold_le_and_mem (ds : Nat → ℚ) :
    ∀ n : Nat,
      ((List.range' 1 n).foldl (fun m i => if ds i < m then ds i else m) (ds 0)
          ≤ ds 0)
      ∧ (∀ i, 1 ≤ i → i ≤ n →
          (List.range' 1 n).foldl (fun m i => if ds i < m then ds i else m) (ds 0)
            ≤ ds i)
      ∧ ∃ j, j ≤ n ∧
          (List.range' 1 n).foldl (fun m i => if ds i < m then ds i else m) (ds 0)
            = ds j := by
  intro n
  induction n with
  | zero =>
    exact ⟨le_refl _, fun i h1 h2 => absurd (h1.trans h2) (by omega),
      ⟨0, le_refl 0, rfl⟩⟩
  | succ k ih =>
    obtain ⟨h0, hle, j, hj, hjeq⟩ := ih
    rw [List.range'_1_concat, List.foldl_concat]
    by_cases hlt : ds (1 + k) <
        (List.range' 1 k).foldl (fun m i => if ds i < m then ds i else m) (ds 0)
    · rw [if_pos hlt]
      refine ⟨le_of_lt (lt_of_lt_of_le hlt h0), ?_, ⟨1 + k, by omega, rfl⟩⟩
      intro i h1 h2
      by_cases hik : i ≤ k
      · exact le_of_lt (lt_of_lt_of_le hlt (hle i h1 hik))
      · have hi : i = 1 + k := by omega
        rw [hi]
    · rw [if_neg hlt]
      push_neg at hlt
      refine ⟨h0, ?_, ⟨j, by omega, hjeq⟩⟩
      intro i h1 h2
      by_cases hik : i ≤ k
      · exact hle i h1 hik
      · have hi : i = 1 + k := by omega
        rw [hi]
        exact hlt

lemma min_cctk_delta_space_is_min (g : CactusGrid) (hd : 1 ≤ g.cctk_dim) :
    (∀ i, i < g.cctk_dim → min_cctk_delta_space g ≤ g.cctk_delta_space i)
    ∧ ∃ j, j < g.cctk_dim ∧ min_cctk_delta_space g = g.cctk_delta_space j := by
  obtain ⟨h0, hle, j, hj, hjeq⟩ :=
    minFold_le_and_mem g.cctk_delta_space (g.cctk_dim - 1)
  unfold min_cctk_delta_space
  constructor
  · intro i hi
    rcases Nat.eq_zero_or_pos i with h | h
    · rw [h]; exact h0
    · exact hle i h (by omega)
  · exact ⟨j, by omega, hjeq⟩

/-- C4: when the resolved time-step method is `courant_static` (whether
the key is absent — it is the default — or stored), `proceedTime`
succeeds and sets the hierarchy's delta-time to
`dtfac * min_cctk_delta_space`, where `min_cctk_delta_space` is (second
conjunct) the minimum of the per-axis spacings over all axes below the
configured dimension. -/
theorem proceedTime_courant_static (fsq : Nat → ℚ) (m : Store) (g : CactusGrid)
    (tm : Bytes) (dtf cf : ℚ)
    (htm : getP m "time::timestep_method" fromStringWord
        (bytes "courant_static") = .ok tm)
    (hcs : iequals tm (bytes "courant_static") = true)
    (hdt : getP m "time::dtfac" fromStringRat 0 = .ok dtf)
    (hcf : getP m "time::courant_fac" fromStringRat (9/10) = .ok cf) :
    proceedTime fsq m g =
      .ok { g with cctk_delta_time := dtf * min_cctk_delta_space g }
    ∧ (1 ≤ g.cctk_dim →
        (∀ i, i < g.cctk_dim → min_cctk_delta_space g ≤ g.cctk_delta_space i)
        ∧ ∃ j, j < g.cctk_dim ∧
            min_cctk_delta_space g = g.cctk_delta_space j) := by
  have hgiven : iequals tm (bytes "given") = false :=
    iequals_false_of tm (bytes "courant_static") (bytes "given") hcs (by decide)
  constructor
  · unfold proceedTime
    simp only [htm, hdt, hcf, bind_ok]
    rw [if_neg (by simp [hgiven]), if_pos (by simp [hcs])]
    rfl
  · exact fun h1 => min_cctk_delta_space_is_min g h1

/-- Witness for C4, the spec's example: spacings 0.2, 0.1, 0.3 (`exGrid`)
and `time::dtfac = 0.5` give delta-time `0.05`. -/
theorem proceedTime_courant_static_witness :
    (proceedTime (fun _ => 0) [(bytes "time::dtfac", bytes "0.5")] exGrid).map
      (fun q => q.cctk_delta_time) = .ok (1/20) := by
  have hdt : getP [(bytes "time::dtfac", bytes "0.5")] "time::dtfac"
      fromStringRat 0 = .ok (1/2) := by
    show fromStringRat (bytes "0.5") = .ok (1/2)
    show Except.ok ((digitsToNat (bytes "05") : ℚ) / 10 ^ 1 * 1) = _
    rw [show digitsToNat (bytes "05") = 5 from rfl]
    exact congrArg Except.ok (by norm_num)
  have h := (proceedTime_courant_static (fun _ => 0) _ exGrid
      (bytes "courant_static") (1/2) (9/10)
      (by decide) (by decide) hdt rfl).1
  have hmin : min_cctk_delta_space exGrid = 1/10 := by
    unfold min_cctk_delta_space
    rw [show List.range' 1 (exGrid.cctk_dim - 1) = [1, 2] from rfl]
    simp only [List.foldl_cons, List.foldl_nil]
    rw [show exGrid.cctk_delta_space 0 = 2/10 from rfl,
      show exGrid.cctk_delta_space 1 = 1/10 from rfl,
      show exGrid.cctk_delta_space 2 = 3/10 from rfl]
    norm_num
  rw [h, hmin]
  show Except.ok ((1 : ℚ)/2 * (1/10)) = _
  exact congrArg Except.ok (by norm_num)

lemma setupSymmetry_full (a : Nat → Bool) (g : CactusGrid) :
    setupSymmetry (bytes "full") a g = .ok g := by
  unfold setupSymmetry
  rw [if_neg (by decide), if_neg (by decide), if_neg (by decide),
    if_pos (by decide)]

lemma arr3_const {α : Type} (x : α) : ∀ i, arr3 x x x i = x := by
  intro i
  rcases i with _ | _ | i <;> rfl

/-- C5 counterexample: the claim says a uniform `grid::dxyz` key present in
the store overrides the per-axis spacings whenever it is present; but with
`grid::dxyz = 0` stored (present, converting to 0) and `grid::dx = 0.5`,
the `byspacing` branch resolves the axis-0 spacing to `0.5`, not to the
stored uniform value `0`. -/
theorem proceedCartGrid_uniform_spacing_counterexample :
    getString [(bytes "grid::type", bytes "byspacing"),
        (bytes "grid::dxyz", bytes "0"),
        (bytes "grid::dx", bytes "0.5")] (bytes "grid::dxyz")
      = some (bytes "0")
    ∧ fromStringRat (bytes "0") = .ok 0
    ∧ (proceedCartGrid [(bytes "grid::type", bytes "byspacing"),
        (bytes "grid::dxyz", bytes "0"),
        (bytes "grid::dx", bytes "0.5")] exGrid).map
        (fun q => q.cctk_delta_space 0) = .ok (1/2)
    ∧ ((1 : ℚ)/2) ≠ 0 := by
  refine ⟨by decide, ?_, ?_, by norm_num⟩
  · show Except.ok ((digitsToNat (bytes "0") : ℚ) / 10 ^ 0 * 1) = _
    rw [show digitsToNat (bytes "0") = 0 from rfl]
    exact congrArg Except.ok (by norm_num)
  · have hdxyz : getP [(bytes "grid::type", bytes "byspacing"),
        (bytes "grid::dxyz", bytes "0"),
        (bytes "grid::dx", bytes "0.5")] "grid::dxyz" fromStringRat 0
        = .ok 0 := by
      show fromStringRat (bytes "0") = _
      show Except.ok ((digitsToNat (bytes "0") : ℚ) / 10 ^ 0 * 1) = _
      rw [show digitsToNat (bytes "0") = 0 from rfl]
      exact congrArg Except.ok (by norm_num)
    have hdx : getP [(bytes "grid::type", bytes "byspacing"),
        (bytes "grid::dxyz", bytes "0"),
        (bytes "grid::dx", bytes "0.5")] "grid::dx" fromStringRat (3/10)
        = .ok (1/2) := by
      show fromStringRat (bytes "0.5") = _
      show Except.ok ((digitsToNat (bytes "05") : ℚ) / 10 ^ 1 * 1) = _
      rw [show digitsToNat (bytes "05") = 5 from rfl]
      exact congrArg Except.ok (by norm_num)
    unfold proceedCartGrid
    simp only [show getP [(bytes "grid::type", bytes "byspacing"),
        (bytes "grid::dxyz", bytes "0"),
        (bytes "grid::dx", bytes "0.5")] "grid::type" fromStringWord
        (bytes "box") = .ok (bytes "byspacing") from by decide,
      show getP [(bytes "grid::type", bytes "byspacing"),
        (bytes "grid::dxyz", bytes "0"),
        (bytes "grid::dx", bytes "0.5")] "grid::domain" fromStringWord
        (bytes "full") = .ok (bytes "full") from by decide,
      show getP [(bytes "grid::type", bytes "byspacing"),
        (bytes "grid::dxyz", bytes "0"),
        (bytes "grid::dx", bytes "0.5")] "grid::avoid_origin" fromStringBool
        true = .ok true from by decide,
      show getP [(bytes "grid::type", bytes "byspacing"),
        (bytes "grid::dxyz", bytes "0"),
        (bytes "grid::dx", bytes "0.5")] "grid::avoid_originx" fromStringBool
        true = .ok true from by decide,
      show getP [(bytes "grid::type", bytes "byspacing"),
        (bytes "grid::dxyz", bytes "0"),
        (bytes "grid::dx", bytes "0.5")] "grid::avoid_originy" fromStringBool
        true = .ok true from by decide,
      show getP [(bytes "grid::type", bytes "byspacing"),
        (bytes "grid::dxyz", bytes "0"),
        (bytes "grid::dx", bytes "0.5")] "grid::avoid_originz" fromStringBool
        true = .ok true from by decide,
      hdxyz, hdx,
      show getP [(bytes "grid::type", bytes "byspacing"),
        (bytes "grid::dxyz", bytes "0"),
        (bytes "grid::dx", bytes "0.5")] "grid::dy" fromStringRat (3/10)
        = .ok (3/10) from rfl,
      show getP [(bytes "grid::type", bytes "byspacing"),
        (bytes "grid::dxyz", bytes "0"),
        (bytes "grid::dx", bytes "0.5")] "grid::dz" fromStringRat (3/10)
        = .ok (3/10) from rfl,
      bind_ok]
    rw [if_neg (by decide), if_neg (by decide), if_pos (by decide),
      if_neg (by norm_num : ¬ ((0 : ℚ) > 0)), setupSymmetry_full]
    show Except.ok _ = _
    simp [Except.map, arr3]
    exact fun h => absurd h (by decide)

/-- C5 amended: in the `byspacing` branch, whenever the uniform spacing key
resolves from the store to a POSITIVE value, that value overrides all three
per-axis spacings, and the resolved spacing is written to the hierarchy's
spacing array at every axis below the configured dimension. (As stated, with
"present" instead of "present and positive", the claim fails:
`proceedCartGrid_uniform_spacing_counterexample`.) -/
theorem proceedCartGrid_uniform_spacing_amended (m : Store) (g g' : CactusGrid)
    (ty dom : Bytes) (aN a0 a1 a2 : Bool) (dxyz dx dy dz : ℚ)
    (_hdim : g.cctk_dim ≤ 3)
    (hty : getP m "grid::type" fromStringWord (bytes "box") = .ok ty)
    (hbysp : iequals ty (bytes "byspacing") = true)
    (hdom : getP m "grid::domain" fromStringWord (bytes "full") = .ok dom)
    (haN : getP m "grid::avoid_origin" fromStringBool true = .ok aN)
    (ha0 : getP m "grid::avoid_originx" fromStringBool true = .ok a0)
    (ha1 : getP m "grid::avoid_originy" fromStringBool true = .ok a1)
    (ha2 : getP m "grid::avoid_originz" fromStringBool true = .ok a2)
    (hdxyz : getP m "grid::dxyz" fromStringRat 0 = .ok dxyz)
    (hdx : getP m "grid::dx" fromStringRat (3/10) = .ok dx)
    (hdy : getP m "grid::dy" fromStringRat (3/10) = .ok dy)
    (hdz : getP m "grid::dz" fromStringRat (3/10) = .ok dz)
    (hpos : 0 < dxyz)
    (hok : proceedCartGrid m g = .ok g') :
    ∀ i, i < g.cctk_dim → g'.cctk_delta_space i = dxyz := by
  have hbox : iequals ty (bytes "box") = false :=
    iequals_false_of ty (bytes "byspacing") (bytes "box") hbysp (by decide)
  have hbyr : iequals ty (bytes "byrange") = false :=
    iequals_false_of ty (bytes "byspacing") (bytes "byrange") hbysp (by decide)
  unfold proceedCartGrid at hok
  simp only [hty, hdom, haN, ha0, ha1, ha2, hdxyz, hdx, hdy, hdz, bind_ok]
    at hok
  rw [if_neg (by simp [hbox]), if_neg (by simp [hbyr]),
    if_pos (by simp [hbysp])] at hok
  simp only [if_pos hpos] at hok
  intro i hi
  have hpres := setupSymmetry_preserves _ _ _ _ hok
  rw [hpres.2]
  show (if i < g.cctk_dim then arr3 dxyz dxyz dxyz i
    else g.cctk_delta_space i) = dxyz
  rw [if_pos hi, arr3_const]

/-- Witness for C5's amended claim: `grid::dxyz = 2.0` (positive) with grid
type `byspacing` makes the axis-1 spacing 2. -/
theorem proceedCartGrid_uniform_spacing_amended_witness :
    (proceedCartGrid [(bytes "grid::type", bytes "byspacing"),
        (bytes "grid::dxyz", bytes "2.0")] exGrid).map
      (fun q => q.cctk_delta_space 1) = .ok 2 := by
  have hdxyz : getP [(bytes "grid::type", bytes "byspacing"),
      (bytes "grid::dxyz", bytes "2.0")] "grid::dxyz" fromStringRat 0
      = .ok 2 := by
    show fromStringRat (bytes "2.0") = _
    show Except.ok ((digitsToNat (bytes "20") : ℚ) / 10 ^ 1 * 1) = _
    rw [show digitsToNat (bytes "20") = 20 from rfl]
    exact congrArg Except.ok (by norm_num)
  cases hok : proceedCartGrid [(bytes "grid::type", bytes "byspacing"),
      (bytes "grid::dxyz", bytes "2.0")] exGrid with
  | error e =>
    exfalso
    have hbad := hok
    unfold proceedCartGrid at hbad
    simp only [show getP [(bytes "grid::type", bytes "byspacing"),
        (bytes "grid::dxyz", bytes "2.0")] "grid::type" fromStringWord
        (bytes "box") = .ok (bytes "byspacing") from by decide,
      show getP [(bytes "grid::type", bytes "byspacing"),
        (bytes "grid::dxyz", bytes "2.0")] "grid::domain" fromStringWord
        (bytes "full") = .ok (bytes "full") from by decide,
      show getP [(bytes "grid::type", bytes "byspacing"),
        (bytes "grid::dxyz", bytes "2.0")] "grid::avoid_origin"
        fromStringBool true = .ok true from by decide,
      show getP [(bytes "grid::type", bytes "byspacing"),
        (bytes "grid::dxyz", bytes "2.0")] "grid::avoid_originx"
        fromStringBool true = .ok true from by decide,
      show getP [(bytes "grid::type", bytes "byspacing"),
        (bytes "grid::dxyz", bytes "2.0")] "grid::avoid_originy"
        fromStringBool true = .ok true from by decide,
      show getP [(bytes "grid::type", bytes "byspacing"),
        (bytes "grid::dxyz", bytes "2.0")] "grid::avoid_originz"
        fromStringBool true = .ok true from by decide,
      hdxyz,
      show getP [(bytes "grid::type", bytes "byspacing"),
        (bytes "grid::dxyz", bytes "2.0")] "grid::dx" fromStringRat (3/10)
        = .ok (3/10) from rfl,
      show getP [(bytes "grid::type", bytes "byspacing"),
        (bytes "grid::dxyz", bytes "2.0")] "grid::dy" fromStringRat (3/10)
        = .ok (3/10) from rfl,
      show getP [(bytes "grid::type", bytes "byspacing"),
        (bytes "grid::dxyz", bytes "2.0")] "grid::dz" fromStringRat (3/10)
        = .ok (3/10) from rfl,
      bind_ok] at hbad
    rw [if_neg (by decide), if_neg (by decide), if_pos (by decide),
      if_pos (by norm_num : (2 : ℚ) > 0), setupSymmetry_full] at hbad
    exact Except.noConfusion hbad
  | ok g' =>
    have h := proceedCartGrid_uniform_spacing_amended
      [(bytes "grid::type", bytes "byspacing"),
       (bytes "grid::dxyz", bytes "2.0")] exGrid g'
      (bytes "byspacing") (bytes "full") true true true true 2 (3/10) (3/10)
      (3/10) (by decide) (by decide) (by decide) (by decide) (by decide)
      (by decide) (by decide) (by decide) hdxyz rfl rfl rfl
      (by norm_num) hok 1 (by decide)
    simp [Except.map, h]

/-- C10: a freshly constructed parser has `m_parsed = false`, and on any
parser in that state `getCctkGH`, `itMax` and `Hdf5Out` raise the
`logic_error` guard; when `parse` completes successfully the returned
state has `m_parsed = true` and all three accessors return their values
without raising. -/
theorem accessors_guarded_by_parse (file : Option (List Bytes))
    (fsq : Nat → ℚ) (p : ParParser) :
    (mkParParser file).parsed = false
    ∧ (∀ q : ParParser, q.parsed = false →
        q.getCctkGH = .error .logicParseFirst
        ∧ q.itMax = .error .logicParseFirst
        ∧ q.hdf5Out = .error .logicParseFirst)
    ∧ (∀ p', p.parse fsq = .ok p' →
        p'.parsed = true
        ∧ p'.getCctkGH = .ok p'.cctkGH
        ∧ p'.itMax = .ok p'.it_max
        ∧ p'.hdf5Out = .ok p'.hdf5_out) := by
  refine ⟨rfl, ?_, ?_⟩
  · intro q hq
    unfold ParParser.getCctkGH ParParser.itMax ParParser.hdf5Out
    rw [hq]
    exact ⟨rfl, rfl, rfl⟩
  · intro p' hparse
    have hp : p'.parsed = true := by
      unfold ParParser.parse at hparse
      cases hf : p.file with
      | none => rw [hf] at hparse; exact Except.noConfusion hparse
      | some lines =>
        simp only [hf] at hparse
        cases hm : parseLines lines p.parMap with
        | error e => rw [hm] at hparse; exact Except.noConfusion hparse
        | ok m =>
          simp only [hm, bind_ok] at hparse
          cases hc : proceedCactus (prepareValues m) p.it_max with
          | error e => rw [hc] at hparse; exact Except.noConfusion hparse
          | ok it =>
            simp only [hc, bind_ok] at hparse
            cases h1 : proceedPUGH (prepareValues m) p.cctkGH with
            | error e => rw [h1] at hparse; exact Except.noConfusion hparse
            | ok g1 =>
              simp only [h1, bind_ok] at hparse
              cases h2 : proceedCartGrid (prepareValues m) g1 with
              | error e => rw [h2] at hparse; exact Except.noConfusion hparse
              | ok g2 =>
                simp only [h2, bind_ok] at hparse
                cases h3 : proceedTime fsq (prepareValues m) g2 with
                | error e => rw [h3] at hparse; exact Except.noConfusion hparse
                | ok g3 =>
                  simp only [h3, bind_ok] at hparse
                  cases hparse
                  rfl
    unfold ParParser.getCctkGH ParParser.itMax ParParser.hdf5Out
    rw [hp]
    exact ⟨rfl, rfl, rfl, rfl⟩

/-- Witness for C10: on a one-comment-line file the fresh parser's
accessors raise, `parse` succeeds, and all accessors on the result
return. -/
theorem accessors_guarded_by_parse_witness :
    (mkParParser (some [bytes "# c"])).getCctkGH = .error .logicParseFirst
    ∧ ((mkParParser (some [bytes "# c"])).parse (fun _ => 0)).map
        (fun q => q.getCctkGH.isOk && q.itMax.isOk && q.hdf5Out.isOk)
      = .ok true := by
  constructor
  · exact ((accessors_guarded_by_parse (some [bytes "# c"]) (fun _ => 0)
      (mkParParser (some [bytes "# c"]))).2.1 _ rfl).1
  · have hIsOk : ((mkParParser (some [bytes "# c"])).parse
        (fun _ => 0)).isOk = true := rfl
    cases hok : (mkParParser (some [bytes "# c"])).parse (fun _ => 0) with
    | error e =>
      rw [hok] at hIsOk
      exact Bool.noConfusion hIsOk
    | ok p' =>
      have h := (accessors_guarded_by_parse (some [bytes "# c"]) (fun _ => 0)
        (mkParParser (some [bytes "# c"]))).2.2 p' hok
      simp [Except.map, h.2.1, h.2.2.1, h.2.2.2, Except.isOk, Except.toBool]

end Cactus
